import Mathlib

/-!
Shallow embedding of the non-blocking socket reactor in src/osnet/Wire.hpp
(class ZeroTier::Wire).  OS syscall outcomes (socket, bind, accept,
getpeername, recv, recvfrom, sendto, send, and the ready sets select leaves
behind) are supplied as explicit oracle parameters; handler invocations and
the descriptor-affecting syscalls the reactor issues are recorded as traces.
Machine pointers are opaque: a table entry's address while live is rendered
as an id handed out by a monotone allocation counter (distinct live objects
have distinct addresses), and sockaddr values are opaque naturals.
-/

/-- Socket types, mirroring enum WireSocketType (Wire.hpp lines 573-581). -/
inductive WireSocketType where
  | tcpOutPending
  | tcpOutConnected
  | tcpIn
  | tcpListen
  | raw
  | udp
deriving DecidableEq, Repr

/-- Numeric code of each socket type, as assigned in the source enum. -/
def WireSocketType.code : WireSocketType → Nat
  | .tcpOutPending => 0x00
  | .tcpOutConnected => 0x01
  | .tcpIn => 0x02
  | .tcpListen => 0x03
  | .raw => 0x04
  | .udp => 0x05

/-- One socket-table entry, mirroring struct WireSocketImpl (lines 583-589).
The extra id field models the address of the list node while the entry is
live: the source hands that address out as the opaque WireSocket handle, and
distinct live objects have distinct addresses, rendered here by an allocation
counter held in the reactor state. -/
structure WireSocketImpl where
  type : WireSocketType
  sock : Nat
  uptr : Nat
  saddr : Nat
  id : Nat
deriving DecidableEq, Repr

/-- Wire::_isTCP (line 591). -/
def isTCP (sws : WireSocketImpl) : Bool := (sws.type.code &&& 0x03) != 0

/-- File-descriptor set, modelling fd_set; only membership is observable. -/
abbrev FdSet := List Nat

/-- FD_SET: add a descriptor to the set. -/
def fdSet (fd : Nat) (s : FdSet) : FdSet := if fd ∈ s then s else fd :: s

/-- FD_CLR: remove a descriptor from the set. -/
def fdClr (fd : Nat) (s : FdSet) : FdSet := s.filter (fun x => x != fd)

/-- FD_ISSET: descriptor membership test. -/
def fdIsSet (fd : Nat) (s : FdSet) : Bool := decide (fd ∈ s)

/-- ZT_WIRE_MAX_SOCKETS is FD_SETSIZE (lines 58, 65); 1024 on POSIX targets. -/
def ZT_WIRE_MAX_SOCKETS : Nat := 1024

/-- Reactor state, mirroring the private data of class Wire (lines 600-607):
the socket list, the three interest sets, nfds, the whack pipe descriptors
and the noDelay flag.  nextId models the allocator handing out a distinct
address for each new list node (see WireSocketImpl.id). -/
structure WireState where
  socks : List WireSocketImpl
  readfds : FdSet
  writefds : FdSet
  exceptfds : FdSet
  nfds : Nat
  whackReceiveSocket : Nat
  whackSendSocket : Nat
  noDelay : Bool
  nextId : Nat
deriving DecidableEq, Repr

/-- A handler invocation together with the arguments passed at the call site:
handles are entry ids, uptr and address arguments are the values current at
the call. -/
inductive HandlerCall where
  | onDatagram (sock : Nat) (uptr : Nat) (srcAddr : Nat) (len : Nat)
  | onTcpConnect (sock : Nat) (uptr : Nat) (success : Bool)
  | onTcpAccept (sockL : Nat) (sockN : Nat) (uptrL : Nat) (uptrN : Nat) (peerAddr : Nat)
  | onTcpClose (sock : Nat) (uptr : Nat)
  | onTcpData (sock : Nat) (uptr : Nat) (len : Nat)
  | onTcpWritable (sock : Nat) (uptr : Nat)
deriving DecidableEq, Repr

/-- Descriptor-affecting syscalls traced by the embedding.  Socket-option
syscalls that do not affect reactor state or the claims (buffer sizing
backoff, address-family policies, SO_REUSEADDR, SO_BROADCAST) are untraced. -/
inductive OsAction where
  | closeFd (fd : Nat)
  | setNonBlocking (fd : Nat)
  | setNoDelay (fd : Nat) (enabled : Bool)
deriving DecidableEq, Repr

/-- Behaviour oracle for the six injected handlers: whether a given
invocation raises an exception inside the handler body. -/
abbrev HandlerRaises := HandlerCall → Bool

/-- The bare handler invocation: the call happens, and if the handler raises,
the exception propagates as an error. -/
def hcall (H : HandlerRaises) (c : HandlerCall) : Except Unit Unit :=
  if H c then Except.error () else Except.ok ()

/-- A guarded handler invocation as written at every call site in the source:
try then the handler then catch-all with an empty body.  The exception, if
any, is caught and discarded at the call site, and the invocation is recorded
in the trace either way (the handler did run). -/
def tryCall (H : HandlerRaises) (c : HandlerCall) : List HandlerCall :=
  match hcall H c with
  | Except.ok _ => [c]
  | Except.error _ => [c]

/-- Replace in place the first entry whose id matches, modelling mutation of
the list node a pointer or iterator designates. -/
def updateById : List WireSocketImpl → Nat → (WireSocketImpl → WireSocketImpl) → List WireSocketImpl
  | [], _, _ => []
  | e :: rest, i, f => if e.id = i then f e :: rest else e :: updateById rest i f

/-- Erase the first entry whose id matches, modelling the erase of the list
node whose address compares equal to the handle (lines 535-540). -/
def removeFirstById : List WireSocketImpl → Nat → List WireSocketImpl
  | [], _ => []
  | e :: rest, i => if e.id = i then rest else e :: removeFirstById rest i

/-- Result of an operation that may invoke handlers and issue syscalls. -/
structure StepResult where
  st : WireState
  calls : List HandlerCall
  osActs : List OsAction
deriving DecidableEq, Repr

/-- Result of a creation operation: new state, returned handle (none models a
null WireSocket pointer), handler-call trace and syscall trace. -/
structure OpResult where
  st : WireState
  ret : Option Nat
  calls : List HandlerCall
  osActs : List OsAction
deriving DecidableEq, Repr

/-- Wire::close (lines 492-541).  The handle parameter is an Option: none
models a null WireSocket pointer, for which the source returns immediately.
For a live handle the source dereferences the pointed-to entry and finally
erases the list node whose address equals the handle; both are rendered
through the entry id.  A non-null handle naming no table entry dereferences
freed memory in the source (undefined) and is modelled as a no-op. -/
def close (H : HandlerRaises) (w : WireState) (sock : Option Nat) (callHandlers : Bool) :
    StepResult :=
  match sock with
  | none => ⟨w, [], []⟩
  | some h =>
    match w.socks.find? (fun e => e.id == h) with
    | none => ⟨w, [], []⟩
    | some sws =>
      let readfds1 := fdClr sws.sock w.readfds
      let writefds1 := fdClr sws.sock w.writefds
      let exceptfds1 := fdClr sws.sock w.exceptfds
      let calls : List HandlerCall :=
        match sws.type with
        | .tcpOutPending =>
          if callHandlers then tryCall H (.onTcpConnect h sws.uptr false) else []
        | .tcpOutConnected =>
          if callHandlers then tryCall H (.onTcpClose h sws.uptr) else []
        | .tcpIn =>
          if callHandlers then tryCall H (.onTcpClose h sws.uptr) else []
        | _ => []
      let nfds1 :=
        if w.nfds ≤ sws.sock then
          w.socks.foldl (fun acc e => max acc e.sock)
            (max w.whackSendSocket w.whackReceiveSocket)
        else w.nfds
      ⟨{ w with
           socks := removeFirstById w.socks h,
           readfds := readfds1, writefds := writefds1, exceptfds := exceptfds1,
           nfds := nfds1 },
       calls, [OsAction.closeFd sws.sock]⟩

/-- OS outcomes for udpBind: the fd returned by the socket syscall (none
renders an invalid descriptor), whether bind succeeded, and whether the
push_back allocation succeeded (the source catches allocation failure and
closes the descriptor). -/
structure UdpBindOS where
  socketResult : Option Nat
  bindOk : Bool
  allocOk : Bool

/-- Wire::udpBind (lines 205-289): capacity check, socket syscall, option
setting, bind, non-blocking mode, table insertion, read-interest
registration and nfds update. -/
def udpBind (w : WireState) (os : UdpBindOS) (localAddress : Nat) (uptr : Nat) : OpResult :=
  if ZT_WIRE_MAX_SOCKETS ≤ w.socks.length then ⟨w, none, [], []⟩
  else
    match os.socketResult with
    | none => ⟨w, none, [], []⟩
    | some s =>
      if !os.bindOk then ⟨w, none, [], [OsAction.closeFd s]⟩
      else if !os.allocOk then ⟨w, none, [], [OsAction.setNonBlocking s, OsAction.closeFd s]⟩
      else
        let sws : WireSocketImpl :=
          { type := .udp, sock := s, uptr := uptr, saddr := localAddress, id := w.nextId }
        ⟨{ w with
             socks := w.socks ++ [sws],
             readfds := fdSet s w.readfds,
             nfds := max w.nfds s,
             nextId := w.nextId + 1 },
         some w.nextId, [], [OsAction.setNonBlocking s]⟩

/-- Wire::tcpListen exactly as present in the source (lines 314-318): only
the capacity check is written; below capacity the function body ends without
creating anything (the creation path is absent from the source). -/
def tcpListenSrc (w : WireState) : OpResult := ⟨w, none, [], []⟩

/-- Wire::tcpConnect exactly as present in the source (lines 331-335): only
the capacity check is written; the creation path is absent from the source. -/
def tcpConnectSrc (w : WireState) : OpResult := ⟨w, none, [], []⟩

/-- OS outcomes for the spec-modelled TCP creation paths: the fd from the
socket syscall and whether the OS accepted bind-and-listen (listen path)
respectively the connect initiation (connect path). -/
structure TcpCreateOS where
  socketResult : Option Nat
  ok : Bool

/-- Modelled from the spec: the listen-socket creation path is missing from
the source (Wire::tcpListen, lines 314-318, contains only the capacity
check).  Spec section 9 names the required behaviour: create the socket, set
non-blocking mode, register readable interest, and insert a Listening table
entry exactly as done for the UDP bind path; creation failures yield the
no-socket result (spec section 7a). -/
def tcpListen (w : WireState) (os : TcpCreateOS) (localAddress : Nat) (uptr : Nat) : OpResult :=
  if ZT_WIRE_MAX_SOCKETS ≤ w.socks.length then ⟨w, none, [], []⟩
  else
    match os.socketResult with
    | none => ⟨w, none, [], []⟩
    | some s =>
      if !os.ok then ⟨w, none, [], [OsAction.closeFd s]⟩
      else
        let sws : WireSocketImpl :=
          { type := .tcpListen, sock := s, uptr := uptr, saddr := localAddress, id := w.nextId }
        ⟨{ w with
             socks := w.socks ++ [sws],
             readfds := fdSet s w.readfds,
             nfds := max w.nfds s,
             nextId := w.nextId + 1 },
         some w.nextId, [], [OsAction.setNonBlocking s]⟩

/-- Modelled from the spec: the outbound-connect creation path is missing
from the source (Wire::tcpConnect, lines 331-335, contains only the capacity
check).  Spec section 9 names the required behaviour: create the socket, set
non-blocking mode, register exceptional and writable interest, and insert an
OutboundPending table entry exactly as done for the UDP bind path; creation
failures yield the no-socket result (spec section 7a). -/
def tcpConnect (w : WireState) (os : TcpCreateOS) (remoteAddress : Nat) (uptr : Nat) : OpResult :=
  if ZT_WIRE_MAX_SOCKETS ≤ w.socks.length then ⟨w, none, [], []⟩
  else
    match os.socketResult with
    | none => ⟨w, none, [], []⟩
    | some s =>
      if !os.ok then ⟨w, none, [], [OsAction.closeFd s]⟩
      else
        let sws : WireSocketImpl :=
          { type := .tcpOutPending, sock := s, uptr := uptr, saddr := remoteAddress, id := w.nextId }
        ⟨{ w with
             socks := w.socks ++ [sws],
             exceptfds := fdSet s w.exceptfds,
             writefds := fdSet s w.writefds,
             nfds := max w.nfds s,
             nextId := w.nextId + 1 },
         some w.nextId, [], [OsAction.setNonBlocking s]⟩

/-- Wire::udpSend (lines 301-305): a single non-blocking sendto whose return
value is compared against the payload length; sendtoResult is the syscall
return value (negative on failure, otherwise the bytes accepted). -/
def udpSend (w : WireState) (sock : Nat) (addr : Nat) (addrlen : Nat)
    (len : Nat) (sendtoResult : Int) : WireState × Bool :=
  (w, sendtoResult == (len : Int))

/-- Wire::tcpSend (lines 345-350): one non-blocking send; a positive return
is passed through as the byte count, everything else becomes 0. -/
def tcpSend (w : WireState) (sock : Nat) (len : Nat) (sendResult : Int) :
    WireState × Nat :=
  (w, if 0 < sendResult then sendResult.toNat else 0)

/-- Wire::tcpSetNotifyWritable (lines 362-370). -/
def tcpSetNotifyWritable (w : WireState) (sock : Nat) (notifyWritable : Bool) : WireState :=
  match w.socks.find? (fun e => e.id == sock) with
  | none => w
  | some sws =>
    if notifyWritable then { w with writefds := fdSet sws.sock w.writefds }
    else { w with writefds := fdClr sws.sock w.writefds }

/-- OS outcomes for one poll pass: the ready sets select() leaves in the
copied fd sets, and per-descriptor results of accept (accepted fd plus peer
address, none when invalid), getpeername, recv and recvfrom (byte count plus
source address). -/
structure PollOS where
  rfds : FdSet
  wfds : FdSet
  efds : FdSet
  acceptResult : Nat → Option (Nat × Nat)
  getpeernameOk : Nat → Bool
  recvResult : Nat → Int
  recvfromResult : Nat → Int × Nat

/-- One iteration of the dispatch loop in Wire::poll (lines 405-489) for the
table entry the iterator designates.  The source names the current entry with
the ill-formed expression writing _socks bracket i; the surrounding code
(real dereferences through the iterator s) makes the intent the entry under
the iterator, rendered here by its id.  In the accept branch the source sets
the new entry's type to ZT_WIRE_SOCKET_UDP (line 464), not TCP_IN, and its
sock field with the ill-formed assignment of the iterator itself (line 465);
the descriptor actually registered and handed to the accept handler is
newSock, which is what the model stores.  After an error-path close of the
current entry the source still evaluates the writable-notify condition
against the live write-interest set, from which close just removed the
descriptor, so the condition is false; the model evaluates it against the
post-close state.  The RAW type reaches only the default case of the switch:
no dispatch. -/
def pollStep (H : HandlerRaises) (os : PollOS) (acc : StepResult) (sws : WireSocketImpl) :
    StepResult :=
  match sws.type with
  | .tcpOutPending =>
    if fdIsSet sws.sock os.efds then
      let r := close H acc.st (some sws.id) true
      ⟨r.st, acc.calls ++ r.calls, acc.osActs ++ r.osActs⟩
    else if fdIsSet sws.sock os.wfds then
      if os.getpeernameOk sws.sock then
        ⟨{ acc.st with
             socks := updateById acc.st.socks sws.id
               (fun e => { e with type := .tcpOutConnected }),
             readfds := fdSet sws.sock acc.st.readfds,
             writefds := fdClr sws.sock acc.st.writefds,
             exceptfds := fdClr sws.sock acc.st.exceptfds },
         acc.calls ++ tryCall H (.onTcpConnect sws.id sws.uptr true), acc.osActs⟩
      else
        let r := close H acc.st (some sws.id) true
        ⟨r.st, acc.calls ++ r.calls, acc.osActs ++ r.osActs⟩
    else acc
  | .tcpOutConnected | .tcpIn =>
    let r1 : StepResult :=
      if fdIsSet sws.sock os.rfds then
        let n := os.recvResult sws.sock
        if n ≤ 0 then
          let r := close H acc.st (some sws.id) true
          ⟨r.st, acc.calls ++ r.calls, acc.osActs ++ r.osActs⟩
        else
          ⟨acc.st, acc.calls ++ tryCall H (.onTcpData sws.id sws.uptr n.toNat), acc.osActs⟩
      else acc
    if fdIsSet sws.sock os.wfds && fdIsSet sws.sock r1.st.writefds then
      ⟨r1.st, r1.calls ++ tryCall H (.onTcpWritable sws.id sws.uptr), r1.osActs⟩
    else r1
  | .tcpListen =>
    if fdIsSet sws.sock os.rfds then
      match os.acceptResult sws.sock with
      | none => acc
      | some (newSock, peerAddr) =>
        if ZT_WIRE_MAX_SOCKETS ≤ acc.st.socks.length then
          ⟨acc.st, acc.calls, acc.osActs ++ [OsAction.closeFd newSock]⟩
        else
          let newEntry : WireSocketImpl :=
            { type := .udp,
              sock := newSock,
              uptr := 0, saddr := peerAddr, id := acc.st.nextId }
          ⟨{ acc.st with
               socks := acc.st.socks ++ [newEntry],
               readfds := fdSet newSock acc.st.readfds,
               nfds := max acc.st.nfds newSock,
               nextId := acc.st.nextId + 1 },
           acc.calls ++ tryCall H
             (.onTcpAccept sws.id acc.st.nextId sws.uptr 0 peerAddr),
           acc.osActs ++ [OsAction.setNoDelay newSock acc.st.noDelay,
             OsAction.setNonBlocking newSock]⟩
    else acc
  | .udp =>
    if fdIsSet sws.sock os.rfds then
      let rr := os.recvfromResult sws.sock
      if 0 < rr.1 then
        ⟨acc.st, acc.calls ++ tryCall H
          (.onDatagram sws.id sws.uptr rr.2 rr.1.toNat), acc.osActs⟩
      else acc
    else acc
  | .raw => acc

/-- Wire::poll (lines 381-490).  The ready sets and per-descriptor syscall
outcomes are given by the oracle; the timeout only bounds the select call.
Draining the whack pipe reads and discards bytes without touching reactor
state.  The source iterates the live list, which can grow at its tail while
iterating (entries appended by accept); a freshly accepted descriptor is not
present in the select-returned ready sets, so visiting those trailing entries
dispatches nothing, and the pass is rendered as a fold over the entries
present when the call began. -/
def poll (H : HandlerRaises) (w : WireState) (os : PollOS) (timeout : Nat) : StepResult :=
  w.socks.foldl (pollStep H os) ⟨w, [], []⟩

/-- Wire::count (line 190). -/
def count (w : WireState) : Nat := w.socks.length

/-- Wire::maxCount (line 195). -/
def maxCount (_ : WireState) : Nat := ZT_WIRE_MAX_SOCKETS

/-- Constructor outcome (lines 133-165): empty table, zeroed fd sets, nfds
covering the whack pipe descriptors. -/
def initWire (whackReceive whackSend : Nat) (noDelay : Bool) : WireState :=
  { socks := [], readfds := [], writefds := [], exceptfds := [],
    nfds := max whackReceive whackSend,
    whackReceiveSocket := whackReceive, whackSendSocket := whackSend,
    noDelay := noDelay, nextId := 0 }

/-- States reachable from a freshly constructed reactor by creation, close
and poll operations with arbitrary OS outcomes and handler behaviours. -/
inductive Reachable : WireState → Prop where
  | boot (wr ws : Nat) (nd : Bool) : Reachable (initWire wr ws nd)
  | ofUdpBind (w : WireState) (os : UdpBindOS) (la u : Nat) :
      Reachable w → Reachable (udpBind w os la u).st
  | ofTcpListen (w : WireState) (os : TcpCreateOS) (la u : Nat) :
      Reachable w → Reachable (tcpListen w os la u).st
  | ofTcpConnect (w : WireState) (os : TcpCreateOS) (ra u : Nat) :
      Reachable w → Reachable (tcpConnect w os ra u).st
  | ofClose (H : HandlerRaises) (w : WireState) (s : Option Nat) (b : Bool) :
      Reachable w → Reachable (close H w s b).st
  | ofPoll (H : HandlerRaises) (w : WireState) (os : PollOS) (t : Nat) :
      Reachable w → Reachable (poll H w os t).st

/-! Helper lemmas about the embedded primitives. -/

theorem tryCall_eq (H : HandlerRaises) (c : HandlerCall) : tryCall H c = [c] := by
  unfold tryCall hcall
  by_cases h : H c <;> simp [h]

theorem fdIsSet_fdClr_self (fd : Nat) (s : FdSet) : fdIsSet fd (fdClr fd s) = false := by
  simp [fdIsSet, fdClr, List.mem_filter]

theorem fdIsSet_fdSet_self (fd : Nat) (s : FdSet) : fdIsSet fd (fdSet fd s) = true := by
  unfold fdSet fdIsSet
  by_cases h : fd ∈ s <;> simp [h]

theorem length_removeFirstById_le (l : List WireSocketImpl) (i : Nat) :
    (removeFirstById l i).length ≤ l.length := by
  induction l with
  | nil => simp [removeFirstById]
  | cons e rest ih =>
    unfold removeFirstById
    by_cases h : e.id = i
    · simp [h]
    · simp only [h, if_false, List.length_cons]
      omega

theorem length_removeFirstById_of_find (l : List WireSocketImpl) (i : Nat)
    (sws : WireSocketImpl) (hfind : l.find? (fun e => e.id == i) = some sws) :
    (removeFirstById l i).length + 1 = l.length := by
  induction l with
  | nil => simp [List.find?] at hfind
  | cons e rest ih =>
    by_cases h : e.id = i
    · simp [removeFirstById, h]
    · have hp : ¬((fun x : WireSocketImpl => x.id == i) e = true) := by
        simp [h]
      rw [@List.find?_cons_of_neg _ (fun x : WireSocketImpl => x.id == i) e rest hp] at hfind
      have := ih hfind
      simp only [removeFirstById, h, if_false, List.length_cons]
      omega

theorem length_updateById (l : List WireSocketImpl) (i : Nat)
    (f : WireSocketImpl → WireSocketImpl) :
    (updateById l i f).length = l.length := by
  induction l with
  | nil => simp [updateById]
  | cons e rest ih =>
    unfold updateById
    by_cases h : e.id = i <;> simp [h, ih]

theorem foldl_preserves {α β : Type} (P : α → Prop) (f : α → β → α)
    (hstep : ∀ a b, P a → P (f a b)) :
    ∀ (l : List β) (a : α), P a → P (l.foldl f a) := by
  intro l
  induction l with
  | nil => intro a ha; simpa using ha
  | cons x xs ih =>
    intro a ha
    simpa using ih (f a x) (hstep a x ha)

/-! Claim C10. -/

/-- C10: calling close with a null socket handle is a no-op: for any value of
the invokeHandlers flag it returns immediately, invokes no handler, issues no
syscall, and leaves the socket table, the three interest sets and every
descriptor unchanged. -/
theorem close_null_handle_noop (H : HandlerRaises) (w : WireState) (b : Bool) :
    close H w none b = ⟨w, [], []⟩ := rfl

/-! Claim C7. -/

/-- C7: udpSend returns true if and only if the single non-blocking OS send
accepted the entire payload length; partial acceptance or outright failure
(negative return) both yield false, and the reactor performs no retry or
internal buffering and leaves its state unchanged. -/
theorem udpSend_entire_payload_iff (w : WireState) (sock addr addrlen len : Nat)
    (r : Int) :
    ((udpSend w sock addr addrlen len r).2 = true ↔ r = (len : Int)) ∧
    (r < (len : Int) → (udpSend w sock addr addrlen len r).2 = false) ∧
    (r < 0 → (udpSend w sock addr addrlen len r).2 = false) ∧
    (udpSend w sock addr addrlen len r).1 = w := by
  unfold udpSend
  refine ⟨by simp, ?_, ?_, rfl⟩
  · intro h
    simp only [beq_eq_false_iff_ne, ne_eq]
    omega
  · intro h
    simp only [beq_eq_false_iff_ne, ne_eq]
    omega

/-- Witness for C7 at a concrete input: a send of 4 bytes fully accepted. -/
theorem udpSend_entire_payload_iff_witness :
    ((udpSend (initWire 0 1 false) 4 9 16 4 4).2 = true ↔ (4 : Int) = ((4 : Nat) : Int)) ∧
    ((4 : Int) < ((4 : Nat) : Int) → (udpSend (initWire 0 1 false) 4 9 16 4 4).2 = false) ∧
    ((4 : Int) < 0 → (udpSend (initWire 0 1 false) 4 9 16 4 4).2 = false) ∧
    (udpSend (initWire 0 1 false) 4 9 16 4 4).1 = initWire 0 1 false :=
  udpSend_entire_payload_iff (initWire 0 1 false) 4 9 16 4 4

/-! Claim C8. -/

/-- C8: tcpSend returns the exact positive number of bytes the single
non-blocking OS send accepted, which may be fewer than requested, and returns
0 when the send fails or accepts nothing; the reactor state is unchanged (no
retry, no buffering on the caller's behalf). -/
theorem tcpSend_returns_accepted_bytes (w : WireState) (sock len : Nat) (r : Int) :
    (0 < r → (tcpSend w sock len r).2 = r.toNat) ∧
    (r ≤ 0 → (tcpSend w sock len r).2 = 0) ∧
    (tcpSend w sock len r).1 = w := by
  unfold tcpSend
  refine ⟨?_, ?_, rfl⟩
  · intro h
    simp [h]
  · intro h
    have : ¬ (0 : Int) < r := by omega
    simp [this]

/-- Witness for C8 at a concrete input: a partial send of 7 of 10 bytes. -/
theorem tcpSend_returns_accepted_bytes_witness :
    ((0 : Int) < 7 → (tcpSend (initWire 0 1 false) 4 10 7).2 = (7 : Int).toNat) ∧
    ((7 : Int) ≤ 0 → (tcpSend (initWire 0 1 false) 4 10 7).2 = 0) ∧
    (tcpSend (initWire 0 1 false) 4 10 7).1 = initWire 0 1 false :=
  tcpSend_returns_accepted_bytes (initWire 0 1 false) 4 10 7

/-! Claim C9: handler-raised errors are caught and discarded at every call
site of poll and close. -/

theorem close_handler_oracle_irrel (H H2 : HandlerRaises) (w : WireState)
    (s : Option Nat) (b : Bool) : close H w s b = close H2 w s b := by
  cases s with
  | none => rfl
  | some h =>
    cases hf : w.socks.find? (fun e => e.id == h) with
    | none => simp only [close, hf]
    | some sws => simp only [close, hf, tryCall_eq]

theorem pollStep_handler_oracle_irrel (H H2 : HandlerRaises) (os : PollOS)
    (acc : StepResult) (sws : WireSocketImpl) :
    pollStep H os acc sws = pollStep H2 os acc sws := by
  obtain ⟨ty, sk, up, sa, i⟩ := sws
  cases ty <;>
    simp only [pollStep, tryCall_eq, close_handler_oracle_irrel H H2]

theorem poll_handler_oracle_irrel (H H2 : HandlerRaises) (w : WireState)
    (os : PollOS) (t : Nat) : poll H w os t = poll H2 w os t := by
  unfold poll
  have hf : pollStep H os = pollStep H2 os := by
    funext acc sws
    exact pollStep_handler_oracle_irrel H H2 os acc sws
  rw [hf]

/-- C9: every handler invocation made from poll or from close is guarded (try
then catch-all, the tryCall wrapper) so that any error raised inside the
handler is caught and discarded at the call site: the outcome of poll and of
close — resulting reactor state, the invocations dispatched to the remaining
sockets of the pass, and the syscalls issued — is identical under every
handler raise behaviour, so no handler-raised error propagates out of poll or
close or aborts the pass. -/
theorem poll_close_discard_handler_errors (H H2 : HandlerRaises) (w : WireState)
    (os : PollOS) (t : Nat) (s : Option Nat) (b : Bool) :
    poll H w os t = poll H2 w os t ∧ close H w s b = close H2 w s b :=
  ⟨poll_handler_oracle_irrel H H2 w os t, close_handler_oracle_irrel H H2 w s b⟩

/-! Claim C2: close on a live socket. -/

/-- C2: for a live socket (the table entry the handle designates), close with
invokeHandlers=false invokes no terminal handler, while close with
invokeHandlers=true invokes exactly one terminal handler — the connect
completion handler with success=false for an OutboundPending socket, the
close handler for OutboundConnected or Inbound, and no handler at all for
Listening or UDP or raw — and in every case removes the descriptor from all
three interest sets, closes the descriptor, and removes the table entry. -/
theorem close_terminal_handler_spec (H : HandlerRaises) (w : WireState)
    (h : Nat) (sws : WireSocketImpl) (b : Bool)
    (hfind : w.socks.find? (fun e => e.id == h) = some sws) :
    (b = false → (close H w (some h) b).calls = []) ∧
    (b = true → (close H w (some h) b).calls =
      (match sws.type with
       | .tcpOutPending => [HandlerCall.onTcpConnect h sws.uptr false]
       | .tcpOutConnected => [HandlerCall.onTcpClose h sws.uptr]
       | .tcpIn => [HandlerCall.onTcpClose h sws.uptr]
       | _ => [])) ∧
    fdIsSet sws.sock (close H w (some h) b).st.readfds = false ∧
    fdIsSet sws.sock (close H w (some h) b).st.writefds = false ∧
    fdIsSet sws.sock (close H w (some h) b).st.exceptfds = false ∧
    (close H w (some h) b).osActs = [OsAction.closeFd sws.sock] ∧
    (close H w (some h) b).st.socks = removeFirstById w.socks h ∧
    (close H w (some h) b).st.socks.length + 1 = w.socks.length := by
  obtain ⟨ty, sk, up, sa, i⟩ := sws
  refine ⟨?_, ?_, ?_, ?_, ?_, ?_, ?_, ?_⟩
  · intro hb
    subst hb
    cases ty <;> simp [close, hfind]
  · intro hb
    subst hb
    cases ty <;> simp [close, hfind, tryCall_eq]
  · simp [close, hfind, fdIsSet_fdClr_self]
  · simp [close, hfind, fdIsSet_fdClr_self]
  · simp [close, hfind, fdIsSet_fdClr_self]
  · simp [close, hfind]
  · simp [close, hfind]
  · simp only [close, hfind]
    exact length_removeFirstById_of_find w.socks h _ hfind

/-- Witness for C2 at a concrete input: closing a live OutboundConnected
socket with handler invocation requested. -/
def c2Entry : WireSocketImpl := ⟨.tcpOutConnected, 5, 7, 9, 3⟩

def c2State : WireState := ⟨[c2Entry], [5], [5], [], 5, 0, 1, false, 4⟩

theorem close_terminal_handler_spec_witness :
    (c2State.socks.find? (fun e => e.id == 3) = some c2Entry) ∧
    ((true = false → (close (fun _ => false) c2State (some 3) true).calls = []) ∧
     (true = true → (close (fun _ => false) c2State (some 3) true).calls =
        [HandlerCall.onTcpClose 3 7]) ∧
     fdIsSet 5 (close (fun _ => false) c2State (some 3) true).st.readfds = false ∧
     fdIsSet 5 (close (fun _ => false) c2State (some 3) true).st.writefds = false ∧
     fdIsSet 5 (close (fun _ => false) c2State (some 3) true).st.exceptfds = false ∧
     (close (fun _ => false) c2State (some 3) true).osActs = [OsAction.closeFd 5] ∧
     (close (fun _ => false) c2State (some 3) true).st.socks
        = removeFirstById c2State.socks 3 ∧
     (close (fun _ => false) c2State (some 3) true).st.socks.length + 1
        = c2State.socks.length) :=
  ⟨by decide,
   close_terminal_handler_spec (fun _ => false) c2State 3 c2Entry true (by decide)⟩

/-! Claim C4: OutboundPending dispatch during poll. -/

/-- C4: for an OutboundPending socket processed during a poll pass:
exceptional readiness closes it with the connect-completion handler invoked
with success=false; otherwise writable readiness queries the peer identity
(getpeername), whose failure causes the same failure close, and whose success
transitions the entry to OutboundConnected, sets read interest, clears
writable and exceptional interest for its descriptor, and invokes the
connect-completion handler with success=true. -/
theorem pollStep_outbound_pending_spec (H : HandlerRaises) (os : PollOS)
    (w : WireState) (cs : List HandlerCall) (oa : List OsAction)
    (sws : WireSocketImpl)
    (hty : sws.type = .tcpOutPending)
    (hfind : w.socks.find? (fun e => e.id == sws.id) = some sws) :
    (fdIsSet sws.sock os.efds = true →
      pollStep H os ⟨w, cs, oa⟩ sws =
        ⟨(close H w (some sws.id) true).st,
         cs ++ [HandlerCall.onTcpConnect sws.id sws.uptr false],
         oa ++ [OsAction.closeFd sws.sock]⟩ ∧
      (pollStep H os ⟨w, cs, oa⟩ sws).st.socks = removeFirstById w.socks sws.id) ∧
    (fdIsSet sws.sock os.efds = false → fdIsSet sws.sock os.wfds = true →
     os.getpeernameOk sws.sock = false →
      pollStep H os ⟨w, cs, oa⟩ sws =
        ⟨(close H w (some sws.id) true).st,
         cs ++ [HandlerCall.onTcpConnect sws.id sws.uptr false],
         oa ++ [OsAction.closeFd sws.sock]⟩ ∧
      (pollStep H os ⟨w, cs, oa⟩ sws).st.socks = removeFirstById w.socks sws.id) ∧
    (fdIsSet sws.sock os.efds = false → fdIsSet sws.sock os.wfds = true →
     os.getpeernameOk sws.sock = true →
      (pollStep H os ⟨w, cs, oa⟩ sws).st.socks
          = updateById w.socks sws.id (fun e => { e with type := .tcpOutConnected }) ∧
      fdIsSet sws.sock (pollStep H os ⟨w, cs, oa⟩ sws).st.readfds = true ∧
      fdIsSet sws.sock (pollStep H os ⟨w, cs, oa⟩ sws).st.writefds = false ∧
      fdIsSet sws.sock (pollStep H os ⟨w, cs, oa⟩ sws).st.exceptfds = false ∧
      (pollStep H os ⟨w, cs, oa⟩ sws).calls
          = cs ++ [HandlerCall.onTcpConnect sws.id sws.uptr true] ∧
      (pollStep H os ⟨w, cs, oa⟩ sws).osActs = oa) := by
  obtain ⟨ty, sk, up, sa, i⟩ := sws
  have hty2 : ty = WireSocketType.tcpOutPending := hty
  subst hty2
  refine ⟨?_, ?_, ?_⟩
  · intro he
    constructor
    · simp [pollStep, he, close, hfind, tryCall_eq]
    · simp [pollStep, he, close, hfind]
  · intro he hw hg
    constructor
    · simp [pollStep, he, hw, hg, close, hfind, tryCall_eq]
    · simp [pollStep, he, hw, hg, close, hfind]
  · intro he hw hg
    refine ⟨?_, ?_, ?_, ?_, ?_, ?_⟩ <;>
      simp [pollStep, he, hw, hg, tryCall_eq, fdIsSet_fdSet_self, fdIsSet_fdClr_self]

/-- Witness data for C4: a single OutboundPending socket (descriptor 4,
handle 0) that select reports writable, with getpeername succeeding. -/
def c4Entry : WireSocketImpl := ⟨.tcpOutPending, 4, 8, 2, 0⟩

def c4State : WireState := ⟨[c4Entry], [], [4], [4], 4, 0, 1, false, 1⟩

def c4OS : PollOS := ⟨[], [4], [], fun _ => none, fun _ => true, fun _ => 0, fun _ => (0, 0)⟩

theorem pollStep_outbound_pending_spec_witness :
    (c4Entry.type = WireSocketType.tcpOutPending) ∧
    (c4State.socks.find? (fun e => e.id == c4Entry.id) = some c4Entry) ∧
    ((fdIsSet c4Entry.sock c4OS.efds = true →
      pollStep (fun _ => false) c4OS ⟨c4State, [], []⟩ c4Entry =
        ⟨(close (fun _ => false) c4State (some c4Entry.id) true).st,
         [] ++ [HandlerCall.onTcpConnect c4Entry.id c4Entry.uptr false],
         [] ++ [OsAction.closeFd c4Entry.sock]⟩ ∧
      (pollStep (fun _ => false) c4OS ⟨c4State, [], []⟩ c4Entry).st.socks
          = removeFirstById c4State.socks c4Entry.id) ∧
    (fdIsSet c4Entry.sock c4OS.efds = false → fdIsSet c4Entry.sock c4OS.wfds = true →
     c4OS.getpeernameOk c4Entry.sock = false →
      pollStep (fun _ => false) c4OS ⟨c4State, [], []⟩ c4Entry =
        ⟨(close (fun _ => false) c4State (some c4Entry.id) true).st,
         [] ++ [HandlerCall.onTcpConnect c4Entry.id c4Entry.uptr false],
         [] ++ [OsAction.closeFd c4Entry.sock]⟩ ∧
      (pollStep (fun _ => false) c4OS ⟨c4State, [], []⟩ c4Entry).st.socks
          = removeFirstById c4State.socks c4Entry.id) ∧
    (fdIsSet c4Entry.sock c4OS.efds = false → fdIsSet c4Entry.sock c4OS.wfds = true →
     c4OS.getpeernameOk c4Entry.sock = true →
      (pollStep (fun _ => false) c4OS ⟨c4State, [], []⟩ c4Entry).st.socks
          = updateById c4State.socks c4Entry.id
              (fun e => { e with type := .tcpOutConnected }) ∧
      fdIsSet c4Entry.sock
          (pollStep (fun _ => false) c4OS ⟨c4State, [], []⟩ c4Entry).st.readfds = true ∧
      fdIsSet c4Entry.sock
          (pollStep (fun _ => false) c4OS ⟨c4State, [], []⟩ c4Entry).st.writefds = false ∧
      fdIsSet c4Entry.sock
          (pollStep (fun _ => false) c4OS ⟨c4State, [], []⟩ c4Entry).st.exceptfds = false ∧
      (pollStep (fun _ => false) c4OS ⟨c4State, [], []⟩ c4Entry).calls
          = [] ++ [HandlerCall.onTcpConnect c4Entry.id c4Entry.uptr true] ∧
      (pollStep (fun _ => false) c4OS ⟨c4State, [], []⟩ c4Entry).osActs = [])) :=
  ⟨rfl, by decide,
   pollStep_outbound_pending_spec (fun _ => false) c4OS c4State [] [] c4Entry rfl (by decide)⟩

/-! Claim C1: the accept path of the poll dispatch loop. -/

/-- Concrete failing input for the accept path: one Listening socket,
descriptor 5, handle 1, user context 7, read-ready; accept succeeds with new
descriptor 6 and peer address 42; the table is far below capacity. -/
def c1Listener : WireSocketImpl := ⟨.tcpListen, 5, 7, 0, 1⟩

def c1State : WireState := ⟨[c1Listener], [5], [], [], 5, 0, 1, true, 2⟩

def c1OS : PollOS := ⟨[5], [], [], fun _ => some (6, 42), fun _ => true, fun _ => 0, fun _ => (0, 0)⟩

/-- C1 (divergence at the failing input): the pass inserts exactly one new
table entry, invokes the accept handler exactly once with the listening
socket's handle and context, the new handle and context, and the peer
address, registers the accepted descriptor 6 for read interest and applies
non-blocking mode with the noDelay policy — but the inserted entry's kind is
the source's ZT_WIRE_SOCKET_UDP (line 464), not TCP_IN (Inbound) as the
claim requires. -/
theorem poll_accept_inserts_udp_kind :
    (poll (fun _ => false) c1State c1OS 0).st.socks.map (fun e => e.type)
        = [WireSocketType.tcpListen, WireSocketType.udp] ∧
    (poll (fun _ => false) c1State c1OS 0).calls
        = [HandlerCall.onTcpAccept 1 2 7 0 42] ∧
    (poll (fun _ => false) c1State c1OS 0).osActs
        = [OsAction.setNoDelay 6 true, OsAction.setNonBlocking 6] ∧
    fdIsSet 6 (poll (fun _ => false) c1State c1OS 0).st.readfds = true ∧
    WireSocketType.udp ≠ WireSocketType.tcpIn := by
  decide

/-! Claim C6: the TCP creation paths (spec-modelled, see tcpListen and
tcpConnect above: the source bodies contain only the capacity check). -/

/-- C6: below capacity, with the socket syscall succeeding, tcpListen and
tcpConnect create a TCP socket, set it non-blocking, register interest
(readable for the listener; exceptional plus writable for the pending
outbound connect), insert a table entry of kind Listening respectively
OutboundPending, and return its non-null handle; at capacity both return the
null no-socket result, invoke no handler, and leave the state unchanged. -/
theorem tcp_creation_paths_spec (w w2 : WireState) (os : TcpCreateOS)
    (la ra u s : Nat)
    (hcap : count w < maxCount w)
    (hs : os.socketResult = some s) (hok : os.ok = true)
    (hcap2 : maxCount w2 ≤ count w2) :
    tcpListen w os la u =
      ⟨{ w with
           socks := w.socks ++ [⟨.tcpListen, s, u, la, w.nextId⟩],
           readfds := fdSet s w.readfds,
           nfds := max w.nfds s,
           nextId := w.nextId + 1 },
       some w.nextId, [], [OsAction.setNonBlocking s]⟩ ∧
    tcpConnect w os ra u =
      ⟨{ w with
           socks := w.socks ++ [⟨.tcpOutPending, s, u, ra, w.nextId⟩],
           exceptfds := fdSet s w.exceptfds,
           writefds := fdSet s w.writefds,
           nfds := max w.nfds s,
           nextId := w.nextId + 1 },
       some w.nextId, [], [OsAction.setNonBlocking s]⟩ ∧
    tcpListen w2 os la u = ⟨w2, none, [], []⟩ ∧
    tcpConnect w2 os ra u = ⟨w2, none, [], []⟩ := by
  unfold count maxCount at hcap hcap2
  have hncap : ¬ ZT_WIRE_MAX_SOCKETS ≤ w.socks.length := by omega
  refine ⟨?_, ?_, ?_, ?_⟩ <;>
    simp [tcpListen, tcpConnect, hncap, hcap2, hs, hok]

/-- A reactor state whose table is exactly at capacity. -/
def atCapacityState : WireState :=
  ⟨List.replicate ZT_WIRE_MAX_SOCKETS ⟨.udp, 9, 0, 0, 0⟩, [], [], [], 9, 0, 1, false, 0⟩

/-- The at-capacity state really is at capacity. -/
theorem atCapacityState_at_capacity : maxCount atCapacityState ≤ count atCapacityState := by
  show ZT_WIRE_MAX_SOCKETS ≤
    (List.replicate ZT_WIRE_MAX_SOCKETS (⟨.udp, 9, 0, 0, 0⟩ : WireSocketImpl)).length
  rw [List.length_replicate]

def c6Init : WireState := initWire 0 1 false

def c6OS : TcpCreateOS := ⟨some 4, true⟩

theorem tcp_creation_paths_spec_witness :
    (count c6Init < maxCount c6Init) ∧
    (c6OS.socketResult = some 4) ∧ (c6OS.ok = true) ∧
    (maxCount atCapacityState ≤ count atCapacityState) ∧
    (tcpListen c6Init c6OS 10 7 =
      ⟨{ c6Init with
           socks := c6Init.socks ++ [⟨.tcpListen, 4, 7, 10, c6Init.nextId⟩],
           readfds := fdSet 4 c6Init.readfds,
           nfds := max c6Init.nfds 4,
           nextId := c6Init.nextId + 1 },
       some c6Init.nextId, [], [OsAction.setNonBlocking 4]⟩ ∧
     tcpConnect c6Init c6OS 11 7 =
      ⟨{ c6Init with
           socks := c6Init.socks ++ [⟨.tcpOutPending, 4, 7, 11, c6Init.nextId⟩],
           exceptfds := fdSet 4 c6Init.exceptfds,
           writefds := fdSet 4 c6Init.writefds,
           nfds := max c6Init.nfds 4,
           nextId := c6Init.nextId + 1 },
       some c6Init.nextId, [], [OsAction.setNonBlocking 4]⟩ ∧
     tcpListen atCapacityState c6OS 10 7 = ⟨atCapacityState, none, [], []⟩ ∧
     tcpConnect atCapacityState c6OS 11 7 = ⟨atCapacityState, none, [], []⟩) :=
  ⟨by decide, rfl, rfl,
   atCapacityState_at_capacity,
   tcp_creation_paths_spec c6Init atCapacityState c6OS 10 11 7 4 (by decide) rfl rfl
     (atCapacityState_at_capacity)⟩

/-! Claim C3: the capacity invariant. -/

theorem close_socks_length_le (H : HandlerRaises) (w : WireState)
    (s : Option Nat) (b : Bool) :
    (close H w s b).st.socks.length ≤ w.socks.length := by
  cases s with
  | none => simp [close]
  | some h =>
    cases hf : w.socks.find? (fun e => e.id == h) with
    | none => simp [close, hf]
    | some sws =>
      simp only [close, hf]
      exact length_removeFirstById_le w.socks h

theorem pollStep_socks_le_max (H : HandlerRaises) (os : PollOS)
    (acc : StepResult) (x : WireSocketImpl)
    (hle : acc.st.socks.length ≤ ZT_WIRE_MAX_SOCKETS) :
    (pollStep H os acc x).st.socks.length ≤ ZT_WIRE_MAX_SOCKETS := by
  obtain ⟨st, cs, oa⟩ := acc
  obtain ⟨ty, sk, up, sa, i⟩ := x
  cases ty <;>
    simp only [pollStep] <;>
    repeat' split
  all_goals
    first
      | exact hle
      | exact le_trans (close_socks_length_le H st _ _) hle
      | (simp only [length_updateById]; exact hle)
      | (simp only [List.length_append, List.length_cons, List.length_nil]; omega)

theorem poll_socks_le_max (H : HandlerRaises) (w : WireState) (os : PollOS) (t : Nat)
    (hle : w.socks.length ≤ ZT_WIRE_MAX_SOCKETS) :
    (poll H w os t).st.socks.length ≤ ZT_WIRE_MAX_SOCKETS := by
  unfold poll
  exact foldl_preserves (fun r : StepResult => r.st.socks.length ≤ ZT_WIRE_MAX_SOCKETS)
    (pollStep H os) (fun a b ha => pollStep_socks_le_max H os a b ha) w.socks ⟨w, [], []⟩ hle

theorem udpBind_socks_le_max (w : WireState) (os : UdpBindOS) (la u : Nat)
    (hle : w.socks.length ≤ ZT_WIRE_MAX_SOCKETS) :
    (udpBind w os la u).st.socks.length ≤ ZT_WIRE_MAX_SOCKETS := by
  unfold udpBind
  repeat' split
  all_goals
    first
      | exact hle
      | (simp only [List.length_append, List.length_cons, List.length_nil]; omega)

theorem tcpListen_socks_le_max (w : WireState) (os : TcpCreateOS) (la u : Nat)
    (hle : w.socks.length ≤ ZT_WIRE_MAX_SOCKETS) :
    (tcpListen w os la u).st.socks.length ≤ ZT_WIRE_MAX_SOCKETS := by
  unfold tcpListen
  repeat' split
  all_goals
    first
      | exact hle
      | (simp only [List.length_append, List.length_cons, List.length_nil]; omega)

theorem tcpConnect_socks_le_max (w : WireState) (os : TcpCreateOS) (ra u : Nat)
    (hle : w.socks.length ≤ ZT_WIRE_MAX_SOCKETS) :
    (tcpConnect w os ra u).st.socks.length ≤ ZT_WIRE_MAX_SOCKETS := by
  unfold tcpConnect
  repeat' split
  all_goals
    first
      | exact hle
      | (simp only [List.length_append, List.length_cons, List.length_nil]; omega)

theorem reachable_socks_le_max (w : WireState) (hw : Reachable w) :
    w.socks.length ≤ ZT_WIRE_MAX_SOCKETS := by
  induction hw with
  | boot wr ws nd => simp [initWire]
  | ofUdpBind w os la u hr ih => exact udpBind_socks_le_max w os la u ih
  | ofTcpListen w os la u hr ih => exact tcpListen_socks_le_max w os la u ih
  | ofTcpConnect w os ra u hr ih => exact tcpConnect_socks_le_max w os ra u ih
  | ofClose H w s b hr ih => exact le_trans (close_socks_length_le H w s b) ih
  | ofPoll H w os t hr ih => exact poll_socks_le_max H w os t ih

/-- C3: in every state reachable by creation, close and poll operations,
count equals the number of live table entries and never exceeds maxCount;
and any creation call (udpBind, tcpConnect, tcpListen) made in a state whose
count has reached maxCount returns the null no-socket result, invokes no
handler, issues no syscall, and leaves the table and every existing socket
unchanged. -/
theorem count_capacity_invariant (w wc : WireState) (hw : Reachable w)
    (hcap : maxCount wc ≤ count wc)
    (osU : UdpBindOS) (osT : TcpCreateOS) (la ra u : Nat) :
    count w = w.socks.length ∧
    count w ≤ maxCount w ∧
    udpBind wc osU la u = ⟨wc, none, [], []⟩ ∧
    tcpListen wc osT la u = ⟨wc, none, [], []⟩ ∧
    tcpConnect wc osT ra u = ⟨wc, none, [], []⟩ := by
  have hcap2 : ZT_WIRE_MAX_SOCKETS ≤ wc.socks.length := hcap
  refine ⟨rfl, reachable_socks_le_max w hw, ?_, ?_, ?_⟩ <;>
    simp [udpBind, tcpListen, tcpConnect, hcap2]

/-- Witness for C3: the freshly constructed reactor is reachable, and the
at-capacity state refuses every creation call unchanged. -/
theorem count_capacity_invariant_witness :
    Reachable (initWire 0 1 false) ∧
    (maxCount atCapacityState ≤ count atCapacityState) ∧
    (count (initWire 0 1 false) = (initWire 0 1 false).socks.length ∧
     count (initWire 0 1 false) ≤ maxCount (initWire 0 1 false) ∧
     udpBind atCapacityState ⟨some 4, true, true⟩ 10 7 = ⟨atCapacityState, none, [], []⟩ ∧
     tcpListen atCapacityState ⟨some 4, true⟩ 10 7 = ⟨atCapacityState, none, [], []⟩ ∧
     tcpConnect atCapacityState ⟨some 4, true⟩ 11 7 = ⟨atCapacityState, none, [], []⟩) :=
  ⟨Reachable.boot 0 1 false,
   atCapacityState_at_capacity,
   count_capacity_invariant (initWire 0 1 false) atCapacityState
     (Reachable.boot 0 1 false)
     (atCapacityState_at_capacity)
     ⟨some 4, true, true⟩ ⟨some 4, true⟩ 10 11 7⟩
